import Mathlib

/-!
Verification of the Battelligence battery-dashboard core
(`src/Battelligence.py`) against its specification.

Shallow embedding conventions:
* Python floats are modelled as rationals (`ℚ`).
* `round(x, n)` is modelled as exact round-half-to-even at `n` decimal
  places (`roundTo`), matching Python's rounding rule on exact values.
* Dictionaries keyed by cell name are modelled as association lists
  (`List (String × CellRecord)`), preserving insertion order as Python
  dicts do.
* The random draws of `random.uniform` are explicit parameters of the
  mock-data generator, constrained by the ranges the source passes.
-/

namespace Battelligence

/-- Round-half-to-even of a rational to an integer, the rounding rule of
Python's builtin `round`. -/
def roundHalfEven (x : ℚ) : ℤ :=
  if x - ⌊x⌋ < 1/2 then ⌊x⌋
  else if 1/2 < x - ⌊x⌋ then ⌊x⌋ + 1
  else if ⌊x⌋ % 2 = 0 then ⌊x⌋ else ⌊x⌋ + 1

/-- `round(x, d)` of the source: round to `d` decimal places. -/
def roundTo (x : ℚ) (d : ℕ) : ℚ :=
  (roundHalfEven (x * 10 ^ d) : ℚ) / 10 ^ d

/-- Python's `str.lower()` on one ASCII character: `A`-`Z` maps to
`a`-`z`, everything else is unchanged. -/
def charLower (c : Char) : Char :=
  if 'A' ≤ c ∧ c ≤ 'Z' then Char.ofNat (c.toNat + 32) else c

/-- Python's `str.lower()` (the chemistry identifiers are ASCII). -/
def strLower (s : String) : String := String.mk (s.data.map charLower)

/-- One entry of `CELL_CONFIGS` (lines 73-78 of the source). -/
structure CellConfig where
  nominal : ℚ
  min : ℚ
  max : ℚ
  color : String
deriving DecidableEq

def lfpConfig : CellConfig := ⟨3.2, 2.8, 3.6, "#28a745"⟩
def nmcConfig : CellConfig := ⟨3.6, 3.2, 4.0, "#007bff"⟩
def ltoConfig : CellConfig := ⟨2.4, 1.5, 2.8, "#ffc107"⟩
def lcoConfig : CellConfig := ⟨3.7, 3.0, 4.2, "#dc3545"⟩

/-- The `CELL_CONFIGS` dictionary, as lookup by identifier. -/
def CELL_CONFIGS (s : String) : Option CellConfig :=
  if s = "lfp" then some lfpConfig
  else if s = "nmc" then some nmcConfig
  else if s = "lto" then some ltoConfig
  else if s = "lco" then some lcoConfig
  else none

/-- The status labels returned by `get_cell_status` (the emoji text of the
source label is dropped; the CSS class accompanying it is presentation and
not modelled). -/
inductive CellStatus where
  | Critical
  | Overcharged
  | Normal
  | Warning
deriving DecidableEq, Repr

/-- `get_cell_status(voltage, cell_type)` (lines 80-90):
`CELL_CONFIGS.get(cell_type.lower(), CELL_CONFIGS["lfp"])` then the
four-branch `if/elif` chain on the profile's min/max voltage. -/
def get_cell_status (voltage : ℚ) (cell_type : String) : CellStatus :=
  let config := (CELL_CONFIGS (strLower cell_type)).getD lfpConfig
  if voltage < config.min then .Critical
  else if voltage > config.max then .Overcharged
  else if config.min ≤ voltage ∧ voltage ≤ config.max then .Normal
  else .Warning

/-- One value of the `cells_data` dictionary: the cell record built at
configuration time (lines 145-153).  The `timestamp` key that the mock
refreshers add is a wall-clock datetime and is not modelled. -/
structure CellRecord where
  voltage : ℚ
  current : ℚ
  temp : ℚ
  capacity : ℚ
  min_voltage : ℚ
  max_voltage : ℚ
  cell_type : String
deriving DecidableEq

/-- The `cells_data` dictionary: insertion-ordered map from cell name to
record, modelled as an association list. -/
abbrev Registry := List (String × CellRecord)

/-- `generate_mock_data(cell_type, base_voltage, base_current)`
(lines 92-99).  The three `random.uniform` draws are the explicit
parameters `dv` (from `uniform(-0.1, 0.1)`), `di` (from
`uniform(-0.5, 0.5)`) and `t` (from `uniform(25, 45)`); the datetime
`timestamp` field is not modelled.  Note the `cell_type` argument is
unused, exactly as in the source. -/
def generate_mock_data (cell_type : String) (base_voltage base_current : ℚ)
    (dv di t : ℚ) : CellRecord → CellRecord := fun r =>
  { r with
    voltage := roundTo (base_voltage + dv) 2
    current := roundTo (base_current + di) 2
    temp := roundTo t 1 }

/-- One record built by the configuration page (lines 139-153): voltage is
the chemistry's nominal, capacity is `round(voltage * current, 2)`, `t` is
the `uniform(25, 40)` draw for the temperature. -/
def mkConfigRecord (cell_type : String) (config : CellConfig)
    (current t : ℚ) : CellRecord :=
  { voltage := config.nominal
    current := current
    temp := roundTo t 1
    capacity := roundTo (config.nominal * current) 2
    min_voltage := config.min
    max_voltage := config.max
    cell_type := cell_type }

/-- The control-panel per-cell update (lines 289-292): sliders set
voltage, current and temperature, and capacity is recomputed as
`round(new_voltage * new_current, 2)`. -/
def controlUpdate (r : CellRecord) (new_voltage new_current new_temp : ℚ) :
    CellRecord :=
  { r with
    voltage := new_voltage
    current := new_current
    temp := new_temp
    capacity := roundTo (new_voltage * new_current) 2 }

/-- The Randomize Values handler (lines 305-314): each record is updated
in place with `generate_mock_data(cell_type, nominal, current)`, the base
voltage being the chemistry's nominal.  The `dict.update` call overwrites
voltage, current and temperature but leaves `capacity` untouched. -/
def randomizeCell (config : CellConfig) (r : CellRecord) (dv di t : ℚ) :
    CellRecord :=
  generate_mock_data r.cell_type config.nominal r.current dv di t r

/-- The Real-time Monitor refresh (lines 510-513): each record is updated
in place with `generate_mock_data(cell_type, voltage, current)`; again
`capacity` is left untouched by `dict.update`. -/
def monitorRefreshCell (r : CellRecord) (dv di t : ℚ) : CellRecord :=
  generate_mock_data r.cell_type r.voltage r.current dv di t r

/-- The Emergency Stop handler (lines 316-321): every record's current and
capacity are set to `0.0`; nothing else is touched. -/
def emergencyStop (reg : Registry) : Registry :=
  reg.map fun p => (p.1, { p.2 with current := 0, capacity := 0 })

/-- `healthy_cells` (lines 328-329): the number of records whose voltage
classifies as Normal for their chemistry. -/
def healthy_cells (reg : Registry) : ℕ :=
  reg.countP fun p => decide (get_cell_status p.2.voltage p.2.cell_type = .Normal)

/-- `health_percentage` (line 330): `(healthy_cells / len(cells_data)) * 100`. -/
def health_percentage (reg : Registry) : ℚ :=
  ((healthy_cells reg : ℚ) / (reg.length : ℚ)) * 100

/-- The power-density derived metric (line 361):
`capacity / temp if temp > 0 else 0`. -/
def power_density (r : CellRecord) : ℚ :=
  if r.temp > 0 then r.capacity / r.temp else 0

/-- One entry of `st.session_state.historical_data` (lines 585-588): a
timestamp and a copy of the registry.  The timestamp is modelled as a
natural number. -/
structure Snapshot where
  timestamp : ℕ
  data : Registry

/-- One Real-time Monitor cycle's effect on `historical_data`
(lines 589-593): append the snapshot, then if the list exceeds 100
entries keep only the last 100 (`historical_data[-100:]`). -/
def monitorStoreStep (hist : List Snapshot) (snap : Snapshot) :
    List Snapshot :=
  let h := hist ++ [snap]
  if h.length > 100 then h.drop (h.length - 100) else h

/-!  CSV export (lines 472-488).  The Generate CSV handler builds one row
per cell with columns `Cell`, `Type`, then the record's keys in insertion
order: `voltage`, `current`, `temp`, `capacity`, `min_voltage`,
`max_voltage`, `cell_type`.  Numeric fields are written in decimal; we
model the number formatting as fixed two-decimal rendering (every value
the dashboard stores is an exact multiple of 0.01), and give an explicit
parser for the round-trip property. -/

/-- The digit characters `0`-`9`. -/
def digitToChar (d : ℕ) : Char := Char.ofNat (48 + d)

/-- Inverse of `digitToChar` on digit characters. -/
def charToDigit (c : Char) : ℕ := c.toNat - 48

/-- Little-endian base-10 digits of a natural number (never empty). -/
def natDigits (n : ℕ) : List ℕ :=
  if h : n < 10 then [n] else n % 10 :: natDigits (n / 10)
termination_by n
decreasing_by exact Nat.div_lt_self (by omega) (by omega)

/-- Value of a little-endian digit list. -/
def natOfDigits : List ℕ → ℕ
  | [] => 0
  | d :: ds => d + 10 * natOfDigits ds

/-- Decimal rendering of `n / 100` with exactly two decimal places,
e.g. `325 ↦ "3.25"`. -/
def renderNat (n : ℕ) : List Char :=
  ((natDigits (n / 100)).map digitToChar).reverse ++
    ('.' :: [digitToChar (n % 100 / 10), digitToChar (n % 10)])

/-- Parser inverse to `renderNat`: expects two digits after the dot. -/
def parseDecNat (cs : List Char) : Option ℕ :=
  match cs.reverse with
  | c0 :: c1 :: '.' :: rest =>
      some (charToDigit c0 + 10 * charToDigit c1 +
        100 * natOfDigits (rest.map charToDigit))
  | _ => none

/-- Decimal rendering of `k / 100` for a signed integer `k`. -/
def renderInt (k : ℤ) : List Char :=
  (if k < 0 then ['-'] else []) ++ renderNat k.natAbs

/-- Parser inverse to `renderInt`. -/
def parseDecInt (cs : List Char) : Option ℤ :=
  match cs with
  | '-' :: rest => (parseDecNat rest).map fun n => -(n : ℤ)
  | _ => (parseDecNat cs).map fun n => (n : ℤ)

/-- A numeric CSV field: the rational rendered at two decimal places. -/
def renderQ (q : ℚ) : String := String.mk (renderInt ⌊q * 100⌋)

/-- Parse a numeric CSV field back into a rational. -/
def parseQ (s : String) : Option ℚ :=
  (parseDecInt s.data).map fun k => (k : ℚ) / 100

/-- One CSV data row (lines 473-480): `Cell`, `Type`, then the record
fields in dictionary insertion order, with `cell_type` repeating the
chemistry at the end exactly as `{"Cell": ..., "Type": ..., **data}`
does. -/
def exportRow (cell_name : String) (r : CellRecord) : List String :=
  [cell_name, r.cell_type, renderQ r.voltage, renderQ r.current,
   renderQ r.temp, renderQ r.capacity, renderQ r.min_voltage,
   renderQ r.max_voltage, r.cell_type]

/-- The header row written by `df.to_csv`. -/
def csvHeader : List String :=
  ["Cell", "Type", "voltage", "current", "temp", "capacity",
   "min_voltage", "max_voltage", "cell_type"]

/-- The whole CSV: header then one row per cell, in registry order. -/
def exportCsv (reg : Registry) : List (List String) :=
  csvHeader :: reg.map fun p => exportRow p.1 p.2

/-- Parse one data row back into a named cell record. -/
def parseRow (row : List String) : Option (String × CellRecord) :=
  match row with
  | [cell, ty, v, c, t, cap, mn, mx, _] =>
      match parseQ v, parseQ c, parseQ t, parseQ cap, parseQ mn, parseQ mx with
      | some v, some c, some t, some cap, some mn, some mx =>
          some (cell, ⟨v, c, t, cap, mn, mx, ty⟩)
      | _, _, _, _, _, _ => none
  | _ => none

/-- Parse all data rows, failing if any row fails. -/
def parseRows : List (List String) → Option Registry
  | [] => some []
  | row :: rest =>
      match parseRow row, parseRows rest with
      | some p, some ps => some (p :: ps)
      | _, _ => none

/-- Parse an exported CSV: skip the header, then parse every data row. -/
def parseCsv (rows : List (List String)) : Option Registry :=
  match rows with
  | [] => none
  | _ :: body => parseRows body

/-- A rational that is an exact multiple of 0.01 — the granularity at
which the dashboard stores voltage, current, temperature, capacity and
the voltage bounds. -/
def Centi (q : ℚ) : Prop := ∃ k : ℤ, q = (k : ℚ) / 100

/-- A concrete cell record used as evaluation input: an LFP cell at its
nominal 3.2 V drawing 2 A at 30 °C, capacity 6.4 Wh. -/
def sampleCell : CellRecord :=
  { voltage := 3.2
    current := 2
    temp := 30
    capacity := 6.4
    min_voltage := 2.8
    max_voltage := 3.6
    cell_type := "lfp" }

/-- A concrete one-cell registry used as evaluation input. -/
def sampleReg : Registry := [("cell_1_lfp", sampleCell)]

/-!  Rounding lemmas. -/

lemma abs_roundHalfEven_sub_le (x : ℚ) : |(roundHalfEven x : ℚ) - x| ≤ 1/2 := by
  have h1 := Int.floor_le x
  have h2 := Int.lt_floor_add_one x
  unfold roundHalfEven
  split_ifs with ha hb hc <;> rw [abs_le] <;> constructor <;> push_cast <;> linarith

lemma roundHalfEven_intCast (k : ℤ) : roundHalfEven (k : ℚ) = k := by
  unfold roundHalfEven
  rw [Int.floor_intCast]
  simp

lemma roundTo_centi (k : ℤ) : roundTo ((k : ℚ) / 100) 2 = (k : ℚ) / 100 := by
  unfold roundTo
  have h : ((k : ℚ) / 100) * 10 ^ 2 = (k : ℚ) := by ring
  rw [h, roundHalfEven_intCast]
  norm_num

lemma roundTo2_jitter (k : ℤ) (u : ℚ) (N : ℕ) (hu : |u| ≤ (N : ℚ) / 100) :
    |roundTo ((k : ℚ) / 100 + u) 2 - (k : ℚ) / 100| ≤ (N : ℚ) / 100 := by
  have hb := abs_roundHalfEven_sub_le (((k : ℚ) / 100 + u) * 10 ^ 2)
  set j := roundHalfEven (((k : ℚ) / 100 + u) * 10 ^ 2) with hj
  have h1 : ((k : ℚ) / 100 + u) * 10 ^ 2 = (k : ℚ) + 100 * u := by ring
  rw [h1] at hb
  have h2 : |(j : ℚ) - (k : ℚ)| ≤ (N : ℚ) + 1/2 := by
    have ht : (j : ℚ) - (k : ℚ) = ((j : ℚ) - ((k : ℚ) + 100 * u)) + 100 * u := by ring
    calc |(j : ℚ) - (k : ℚ)|
        = |((j : ℚ) - ((k : ℚ) + 100 * u)) + 100 * u| := by rw [ht]
      _ ≤ |(j : ℚ) - ((k : ℚ) + 100 * u)| + |100 * u| := abs_add _ _
      _ ≤ 1/2 + 100 * |u| := by
          rw [abs_mul]
          norm_num
          linarith
      _ ≤ (N : ℚ) + 1/2 := by
          have : 100 * |u| ≤ (N : ℚ) := by linarith
          linarith
  have h3 : |j - k| ≤ (N : ℤ) := by
    have h4 : ((2 * |j - k| : ℤ) : ℚ) ≤ ((2 * (N : ℤ) + 1 : ℤ) : ℚ) := by
      push_cast
      rw [abs_sub_comm] at h2
      rw [abs_sub_comm]
      linarith [h2, abs_nonneg ((k : ℚ) - (j : ℚ))]
    have h5 : (2 * |j - k| : ℤ) ≤ 2 * (N : ℤ) + 1 := by exact_mod_cast h4
    omega
  have h6 : roundTo ((k : ℚ) / 100 + u) 2 = (j : ℚ) / 100 := by
    unfold roundTo
    rw [← hj]
    norm_num
  rw [h6]
  have h7 : (j : ℚ) / 100 - (k : ℚ) / 100 = ((j - k : ℤ) : ℚ) / 100 := by
    push_cast
    ring
  rw [h7, abs_div]
  have h8 : |((j - k : ℤ) : ℚ)| ≤ (N : ℚ) := by
    rw [← Int.cast_abs]
    exact_mod_cast h3
  rw [abs_of_pos (by norm_num : (0:ℚ) < 100)]
  exact div_le_div_of_nonneg_right h8 (by norm_num) |>.trans_eq rfl

lemma roundTo1_bounds (t : ℚ) (h1 : 25 ≤ t) (h2 : t ≤ 45) :
    25 ≤ roundTo t 1 ∧ roundTo t 1 ≤ 45 := by
  have hb := abs_roundHalfEven_sub_le (t * 10 ^ 1)
  set j := roundHalfEven (t * 10 ^ 1) with hj
  rw [abs_le] at hb
  have hlo : (499 : ℚ) ≤ (2 * j : ℤ) := by push_cast; linarith
  have hhi : ((2 * j : ℤ) : ℚ) ≤ 901 := by push_cast; linarith
  have hlo2 : (499 : ℤ) ≤ 2 * j := by exact_mod_cast hlo
  have hhi2 : (2 * j : ℤ) ≤ 901 := by exact_mod_cast hhi
  have hj250 : (250 : ℤ) ≤ j := by omega
  have hj450 : j ≤ (450 : ℤ) := by omega
  have heq : roundTo t 1 = (j : ℚ) / 10 := by
    unfold roundTo
    rw [← hj]
    norm_num
  rw [heq]
  constructor
  · rw [le_div_iff₀ (by norm_num : (0:ℚ) < 10)]
    exact_mod_cast hj250.trans_eq' (by norm_num)
  · rw [div_le_iff₀ (by norm_num : (0:ℚ) < 10)]
    exact_mod_cast hj450.trans_eq (by norm_num)

/-!  Classifier lemmas. -/

lemma lookup_config_cases (s : String) :
    (CELL_CONFIGS s).getD lfpConfig = lfpConfig ∨
    (CELL_CONFIGS s).getD lfpConfig = nmcConfig ∨
    (CELL_CONFIGS s).getD lfpConfig = ltoConfig ∨
    (CELL_CONFIGS s).getD lfpConfig = lcoConfig := by
  unfold CELL_CONFIGS
  split_ifs <;> simp

lemma lookup_min_le_max (s : String) :
    ((CELL_CONFIGS s).getD lfpConfig).min ≤
      ((CELL_CONFIGS s).getD lfpConfig).max := by
  rcases lookup_config_cases s with h | h | h | h <;> rw [h] <;>
    norm_num [lfpConfig, nmcConfig, ltoConfig, lcoConfig]

lemma get_cell_status_cases (v : ℚ) (c : String) :
    (get_cell_status v c = CellStatus.Critical ↔
       v < ((CELL_CONFIGS (strLower c)).getD lfpConfig).min) ∧
    (get_cell_status v c = CellStatus.Overcharged ↔
       v > ((CELL_CONFIGS (strLower c)).getD lfpConfig).max) ∧
    (get_cell_status v c = CellStatus.Normal ↔
       (((CELL_CONFIGS (strLower c)).getD lfpConfig).min ≤ v ∧
        v ≤ ((CELL_CONFIGS (strLower c)).getD lfpConfig).max)) ∧
    (get_cell_status v c = CellStatus.Critical ∨
     get_cell_status v c = CellStatus.Overcharged ∨
     get_cell_status v c = CellStatus.Normal) := by
  have hmm := lookup_min_le_max (strLower c)
  unfold get_cell_status
  set cfg := (CELL_CONFIGS (strLower c)).getD lfpConfig with hcfg
  dsimp only
  split_ifs with h1 h2 h3
  · refine ⟨⟨fun _ => h1, fun _ => rfl⟩, ⟨(fun h => nomatch h), ?_⟩,
      ⟨(fun h => nomatch h), ?_⟩, Or.inl rfl⟩
    · intro h; exact absurd h (by linarith)
    · intro h; exact absurd h1 (by push_neg; exact h.1)
  · refine ⟨⟨(fun h => nomatch h), ?_⟩, ⟨fun _ => h2, fun _ => rfl⟩,
      ⟨(fun h => nomatch h), ?_⟩, Or.inr (Or.inl rfl)⟩
    · intro h; exact absurd h (by linarith)
    · intro h; exact absurd h2 (by push_neg; exact h.2)
  · refine ⟨⟨(fun h => nomatch h), ?_⟩, ⟨(fun h => nomatch h), ?_⟩,
      ⟨fun _ => h3, fun _ => rfl⟩, Or.inr (Or.inr rfl)⟩
    · intro h; exact absurd h1 (by push_neg; linarith [h3.1])
    · intro h; exact absurd h2 (by push_neg; linarith [h3.2])
  · exact absurd ⟨not_lt.mp h1, not_lt.mp h2⟩ h3

/-!  Digit and CSV round-trip lemmas. -/

lemma natDigits_lt (n : ℕ) : ∀ d ∈ natDigits n, d < 10 := by
  induction n using natDigits.induct with
  | case1 n h =>
      rw [natDigits, dif_pos h]
      intro d hd
      simp at hd
      omega
  | case2 n h ih =>
      rw [natDigits, dif_neg h]
      intro d hd
      rcases List.mem_cons.mp hd with h1 | h1
      · omega
      · exact ih d h1

lemma natDigits_ne_nil (n : ℕ) : natDigits n ≠ [] := by
  rw [natDigits]
  split <;> simp

lemma natOfDigits_natDigits (n : ℕ) : natOfDigits (natDigits n) = n := by
  induction n using natDigits.induct with
  | case1 n h =>
      rw [natDigits, dif_pos h]
      simp [natOfDigits]
  | case2 n h ih =>
      rw [natDigits, dif_neg h]
      rw [natOfDigits, ih]
      omega

lemma charToDigit_digitToChar (d : ℕ) (h : d < 10) :
    charToDigit (digitToChar d) = d := by
  interval_cases d <;> decide

lemma digitToChar_ne_hyphen (d : ℕ) (h : d < 10) : digitToChar d ≠ '-' := by
  interval_cases d <;> decide

lemma map_charToDigit_digitToChar (ds : List ℕ) (h : ∀ d ∈ ds, d < 10) :
    (ds.map digitToChar).map charToDigit = ds := by
  induction ds with
  | nil => rfl
  | cons d ds ih =>
      simp only [List.map_cons, List.cons.injEq]
      exact ⟨charToDigit_digitToChar d (h d (by simp)),
        ih fun x hx => h x (by simp [hx])⟩

lemma parseDecNat_renderNat (n : ℕ) : parseDecNat (renderNat n) = some n := by
  unfold renderNat parseDecNat
  rw [List.reverse_append]
  simp only [List.reverse_cons, List.reverse_nil, List.nil_append,
    List.reverse_reverse, List.cons_append, List.append_assoc]
  rw [charToDigit_digitToChar _ (by omega), charToDigit_digitToChar _ (by omega),
    map_charToDigit_digitToChar _ (natDigits_lt _), natOfDigits_natDigits]
  congr 1
  omega

lemma renderNat_head_not_hyphen (n : ℕ) :
    ∃ c cs, renderNat n = c :: cs ∧ c ≠ '-' := by
  unfold renderNat
  rcases hrev : (natDigits (n / 100)).reverse with _ | ⟨d, ds⟩
  · exact absurd (List.reverse_eq_nil_iff.mp hrev) (natDigits_ne_nil _)
  · rw [← List.map_reverse, hrev]
    refine ⟨digitToChar d, _, rfl, ?_⟩
    have hd : d ∈ natDigits (n / 100) := by
      rw [← List.mem_reverse, hrev]
      simp
    exact digitToChar_ne_hyphen d (natDigits_lt _ d hd)

lemma parseDecInt_renderInt (k : ℤ) : parseDecInt (renderInt k) = some k := by
  rcases lt_or_le k 0 with hk | hk
  · rw [renderInt, if_pos hk]
    simp only [List.cons_append, List.nil_append]
    rw [parseDecInt, parseDecNat_renderNat]
    show some (-(k.natAbs : ℤ)) = some k
    congr 1
    omega
  · have hneg : ¬ k < 0 := not_lt.mpr hk
    obtain ⟨c, cs, hcons, hc⟩ := renderNat_head_not_hyphen k.natAbs
    rw [renderInt, if_neg hneg, List.nil_append, hcons, parseDecInt,
      ← hcons, parseDecNat_renderNat]
    · show some ((k.natAbs : ℤ)) = some k
      congr 1
      omega
    · intro rest hrest
      injection hrest with hh ht
      exact hc hh

lemma parseQ_renderQ (q : ℚ) (h : Centi q) : parseQ (renderQ q) = some q := by
  obtain ⟨k, rfl⟩ := h
  have hfloor : ⌊((k : ℚ) / 100) * 100⌋ = k := by
    rw [div_mul_cancel₀ _ (by norm_num : (100:ℚ) ≠ 0), Int.floor_intCast]
  simp [parseQ, renderQ, hfloor, parseDecInt_renderInt]

lemma parseRow_exportRow (cell_name : String) (r : CellRecord)
    (h : Centi r.voltage ∧ Centi r.current ∧ Centi r.temp ∧
      Centi r.capacity ∧ Centi r.min_voltage ∧ Centi r.max_voltage) :
    parseRow (exportRow cell_name r) = some (cell_name, r) := by
  obtain ⟨h1, h2, h3, h4, h5, h6⟩ := h
  rw [exportRow, parseRow]
  rw [parseQ_renderQ _ h1, parseQ_renderQ _ h2, parseQ_renderQ _ h3,
    parseQ_renderQ _ h4, parseQ_renderQ _ h5, parseQ_renderQ _ h6]

/-!  Claim theorems. -/

/-- C1: for every voltage `v` and chemistry identifier `c` with profile
bounds `[min, max]` (the looked-up profile, defaulting to LFP),
`get_cell_status` returns Critical iff `v < min`, Overcharged iff
`v > max`, Normal iff `min ≤ v ≤ max`, and one of the three outcomes
always holds, so for a fixed profile the three conditions partition the
inputs. -/
theorem get_cell_status_partition (v : ℚ) (c : String) :
    (get_cell_status v c = CellStatus.Critical ↔
       v < ((CELL_CONFIGS (strLower c)).getD lfpConfig).min) ∧
    (get_cell_status v c = CellStatus.Overcharged ↔
       v > ((CELL_CONFIGS (strLower c)).getD lfpConfig).max) ∧
    (get_cell_status v c = CellStatus.Normal ↔
       (((CELL_CONFIGS (strLower c)).getD lfpConfig).min ≤ v ∧
        v ≤ ((CELL_CONFIGS (strLower c)).getD lfpConfig).max)) ∧
    (get_cell_status v c = CellStatus.Critical ∨
     get_cell_status v c = CellStatus.Overcharged ∨
     get_cell_status v c = CellStatus.Normal) :=
  get_cell_status_cases v c

/-- C4: the classifier's fourth branch is unreachable — `get_cell_status`
never returns the Warning status, for any voltage and any chemistry
identifier. -/
theorem warning_unreachable (v : ℚ) (c : String) :
    get_cell_status v c ≠ CellStatus.Warning := by
  rcases (get_cell_status_cases v c).2.2.2 with h | h | h <;> rw [h] <;>
    intro hw <;> cases hw

/-- C5: for a chemistry identifier that is not one of the four known
chemistries after lowercasing, `get_cell_status` does not fail: it falls
back to the default LFP profile, so the classification agrees with
`"lfp"` at every voltage. -/
theorem unknown_chemistry_defaults (c : String)
    (h1 : strLower c ≠ "lfp") (h2 : strLower c ≠ "nmc")
    (h3 : strLower c ≠ "lto") (h4 : strLower c ≠ "lco") (v : ℚ) :
    get_cell_status v c = get_cell_status v "lfp" := by
  unfold get_cell_status
  have hnone : CELL_CONFIGS (strLower c) = none := by
    unfold CELL_CONFIGS
    rw [if_neg h1, if_neg h2, if_neg h3, if_neg h4]
  have hlfp : CELL_CONFIGS (strLower "lfp") = some lfpConfig := rfl
  rw [hnone, hlfp]
  rfl

/-- Witness for C5 at the concrete unknown identifier `"NaCl"`. -/
theorem unknown_chemistry_defaults_witness :
    get_cell_status 3.2 "NaCl" = get_cell_status 3.2 "lfp" :=
  unknown_chemistry_defaults "NaCl" (by decide) (by decide) (by decide)
    (by decide) 3.2

/-- C3: emergency stop on a registry of any size keeps exactly the same
cells in the same order (same length, same names), sets every record's
current and capacity to exactly 0, and leaves voltage, temperature,
chemistry and the voltage bounds unchanged. -/
theorem emergencyStop_frame (reg : Registry) :
    (emergencyStop reg).length = reg.length ∧
    List.Forall₂ (fun p q : String × CellRecord =>
      q.1 = p.1 ∧ q.2.current = 0 ∧ q.2.capacity = 0 ∧
      q.2.voltage = p.2.voltage ∧ q.2.temp = p.2.temp ∧
      q.2.cell_type = p.2.cell_type ∧ q.2.min_voltage = p.2.min_voltage ∧
      q.2.max_voltage = p.2.max_voltage) reg (emergencyStop reg) := by
  constructor
  · simp [emergencyStop]
  · induction reg with
    | nil => exact List.Forall₂.nil
    | cons p ps ih =>
        exact List.Forall₂.cons ⟨rfl, rfl, rfl, rfl, rfl, rfl, rfl, rfl⟩ ih

/-- C9: the power-density metric never divides by zero: when the
temperature is not strictly positive the metric is 0, and otherwise it
equals capacity divided by temperature. -/
theorem power_density_guard (r : CellRecord) :
    (r.temp ≤ 0 → power_density r = 0) ∧
    (0 < r.temp → power_density r = r.capacity / r.temp) := by
  unfold power_density
  constructor
  · intro h
    rw [if_neg (not_lt.mpr h)]
  · intro h
    rw [if_pos h]

/-- Witness for C9 at the concrete record `sampleCell` (temperature
30 °C). -/
theorem power_density_guard_witness :
    power_density sampleCell = sampleCell.capacity / sampleCell.temp :=
  (power_density_guard sampleCell).2 (by norm_num [sampleCell])

/-- C10: the historical-snapshot list kept by the Real-time Monitor never
exceeds 100 entries: a monitor cycle always leaves at most 100 snapshots,
and any sequence of cycles starting from the empty list keeps the length
at most 100. -/
theorem historical_data_bounded :
    (∀ (hist : List Snapshot) (snap : Snapshot),
        (monitorStoreStep hist snap).length ≤ 100) ∧
    (∀ snaps : List Snapshot,
        ((snaps.foldl monitorStoreStep []).length ≤ 100)) := by
  have hstep : ∀ (hist : List Snapshot) (snap : Snapshot),
      (monitorStoreStep hist snap).length ≤ 100 := by
    intro hist snap
    unfold monitorStoreStep
    dsimp only
    split_ifs with h
    · simp only [List.length_drop]
      omega
    · omega
  refine ⟨hstep, ?_⟩
  intro snaps
  have hgen : ∀ init : List Snapshot, init.length ≤ 100 →
      ((snaps.foldl monitorStoreStep init).length ≤ 100) := by
    induction snaps with
    | nil =>
        intro init h
        simpa using h
    | cons s ss ih =>
        intro init h
        rw [List.foldl_cons]
        exact ih _ (hstep init s)
  exact hgen [] (by simp)

/-- C2 (failing evaluation): the Real-time Monitor mock refresh applied to
an LFP cell at 3.2 V / 2 A / capacity 6.4 Wh, with jitter draws +0.1 V and
+0.5 A, sets voltage to 3.3 and current to 2.5 but leaves the stored
capacity at the stale 6.4, which differs from voltage × current = 8.25:
the `dict.update` with the mock data never recomputes capacity, so the
claimed invariant fails on the mock-refresh mutation paths. -/
theorem capacity_stale_after_mock_refresh :
    (monitorRefreshCell sampleCell (1/10) (1/2) 30).voltage = 3.3 ∧
    (monitorRefreshCell sampleCell (1/10) (1/2) 30).current = 2.5 ∧
    (monitorRefreshCell sampleCell (1/10) (1/2) 30).capacity = 6.4 ∧
    (monitorRefreshCell sampleCell (1/10) (1/2) 30).capacity ≠
      (monitorRefreshCell sampleCell (1/10) (1/2) 30).voltage *
        (monitorRefreshCell sampleCell (1/10) (1/2) 30).current := by
  have hv : (monitorRefreshCell sampleCell (1/10) (1/2) 30).voltage = 3.3 := by
    show roundTo (sampleCell.voltage + 1/10) 2 = 3.3
    have h : sampleCell.voltage + 1/10 = ((330 : ℤ) : ℚ) / 100 := by
      norm_num [sampleCell]
    rw [h, roundTo_centi]
    norm_num
  have hc : (monitorRefreshCell sampleCell (1/10) (1/2) 30).current = 2.5 := by
    show roundTo (sampleCell.current + 1/2) 2 = 2.5
    have h : sampleCell.current + 1/2 = ((250 : ℤ) : ℚ) / 100 := by
      norm_num [sampleCell]
    rw [h, roundTo_centi]
    norm_num
  have hcap : (monitorRefreshCell sampleCell (1/10) (1/2) 30).capacity = 6.4 :=
    rfl
  refine ⟨hv, hc, hcap, ?_⟩
  rw [hv, hc, hcap]
  norm_num

/-- C6: for a non-empty registry, `health_percentage` is the count of
Normal-classified records over the total, times 100; it is 100 when every
record classifies Normal and 0 when none does. -/
theorem health_percentage_spec (reg : Registry) (hne : reg ≠ []) :
    health_percentage reg =
      ((healthy_cells reg : ℚ) / (reg.length : ℚ)) * 100 ∧
    ((∀ p ∈ reg,
        get_cell_status p.2.voltage p.2.cell_type = CellStatus.Normal) →
      health_percentage reg = 100) ∧
    ((∀ p ∈ reg,
        get_cell_status p.2.voltage p.2.cell_type ≠ CellStatus.Normal) →
      health_percentage reg = 0) := by
  have hlen0 : reg.length ≠ 0 := fun hz => hne (List.length_eq_zero.mp hz)
  have hlen : (reg.length : ℚ) ≠ 0 := Nat.cast_ne_zero.mpr hlen0
  refine ⟨rfl, ?_, ?_⟩
  · intro hall
    have hcount : healthy_cells reg = reg.length := by
      unfold healthy_cells
      apply List.countP_eq_length.mpr
      intro p hp
      simpa using hall p hp
    unfold health_percentage
    rw [hcount, div_self hlen]
    norm_num
  · intro hnone
    have hcount : healthy_cells reg = 0 := by
      unfold healthy_cells
      apply List.countP_eq_zero.mpr
      intro p hp
      simpa using hnone p hp
    unfold health_percentage
    rw [hcount]
    norm_num

/-- Witness for C6: the one-cell registry with an LFP cell at its nominal
3.2 V classifies entirely Normal, so its health percentage is 100. -/
theorem health_percentage_spec_witness :
    health_percentage sampleReg = 100 :=
  (health_percentage_spec sampleReg (by simp [sampleReg])).2.1 (by
    intro p hp
    simp only [sampleReg, List.mem_singleton] at hp
    subst hp
    show get_cell_status sampleCell.voltage sampleCell.cell_type =
      CellStatus.Normal
    have h1 : strLower "lfp" = "lfp" := rfl
    norm_num [get_cell_status, sampleCell, h1, CELL_CONFIGS, lfpConfig])

/-- C7 (counterexample to the unrestricted claim): with base voltage
3.006 V — not a multiple of 0.01 — and the admissible jitter +0.1 V, the
generator rounds 3.106 up to 3.11, which is farther than 0.1 from the
base, so the stated bound fails for arbitrary real bases. -/
theorem mock_jitter_offgrid_counterexample :
    ¬ (|(generate_mock_data "lfp" 3.006 0 (1/10) 0 30 sampleCell).voltage
          - 3.006| ≤ 1/10) := by
  have hv : (generate_mock_data "lfp" 3.006 0 (1/10) 0 30 sampleCell).voltage
      = 3.11 := by
    show roundTo (3.006 + 1/10) 2 = 3.11
    unfold roundTo roundHalfEven
    have h1 : ((3.006 : ℚ) + 1/10) * 10 ^ 2 = 310.6 := by norm_num
    rw [h1]
    have h2 : ⌊(310.6 : ℚ)⌋ = 310 := by norm_num [Int.floor_eq_iff]
    rw [h2]
    rw [if_neg (by push_cast; norm_num), if_pos (by push_cast; norm_num)]
    push_cast
    norm_num
  rw [hv]
  intro h
  rw [abs_le] at h
  have h2 := h.2
  norm_num at h2

/-- C7 (amended): whenever the base voltage and base current are exact
multiples of 0.01 — as at every call site, where the bases are chemistry
nominals or previously rounded telemetry values — the generated value has
voltage within ±0.1 V of the base, current within ±0.5 A of the base, and
temperature in [25, 45] °C, rounding included. -/
theorem mock_jitter_bounds (ct : String) (bv bi dv di t : ℚ) (r : CellRecord)
    (hbv : Centi bv) (hbi : Centi bi) (hdv : |dv| ≤ 1/10) (hdi : |di| ≤ 1/2)
    (ht1 : 25 ≤ t) (ht2 : t ≤ 45) :
    |(generate_mock_data ct bv bi dv di t r).voltage - bv| ≤ 1/10 ∧
    |(generate_mock_data ct bv bi dv di t r).current - bi| ≤ 1/2 ∧
    25 ≤ (generate_mock_data ct bv bi dv di t r).temp ∧
    (generate_mock_data ct bv bi dv di t r).temp ≤ 45 := by
  obtain ⟨kv, rfl⟩ := hbv
  obtain ⟨ki, rfl⟩ := hbi
  have h1 := roundTo2_jitter kv dv 10 (by push_cast; linarith)
  have h2 := roundTo2_jitter ki di 50 (by push_cast; linarith)
  have h3 := roundTo1_bounds t ht1 ht2
  refine ⟨?_, ?_, h3.1, h3.2⟩
  · show |roundTo ((kv : ℚ)/100 + dv) 2 - (kv : ℚ)/100| ≤ 1/10
    refine h1.trans_eq ?_
    push_cast
    norm_num
  · show |roundTo ((ki : ℚ)/100 + di) 2 - (ki : ℚ)/100| ≤ 1/2
    refine h2.trans_eq ?_
    push_cast
    norm_num

/-- Witness for C7 (amended) at base 3.2 V / 2 A with extreme jitter
+0.1 V / +0.5 A and temperature draw 30 °C. -/
theorem mock_jitter_bounds_witness :
    |(generate_mock_data "lfp" 3.2 2 (1/10) (1/2) 30 sampleCell).voltage
        - 3.2| ≤ 1/10 ∧
    |(generate_mock_data "lfp" 3.2 2 (1/10) (1/2) 30 sampleCell).current
        - 2| ≤ 1/2 ∧
    25 ≤ (generate_mock_data "lfp" 3.2 2 (1/10) (1/2) 30 sampleCell).temp ∧
    (generate_mock_data "lfp" 3.2 2 (1/10) (1/2) 30 sampleCell).temp ≤ 45 :=
  mock_jitter_bounds "lfp" 3.2 2 (1/10) (1/2) 30 sampleCell
    ⟨320, by norm_num⟩ ⟨200, by norm_num⟩
    (by rw [abs_of_pos (by norm_num)])
    (by rw [abs_of_pos (by norm_num)]) (by norm_num) (by norm_num)

lemma parseRows_export : ∀ reg : Registry,
    (∀ p ∈ reg, Centi p.2.voltage ∧ Centi p.2.current ∧
      Centi p.2.temp ∧ Centi p.2.capacity ∧ Centi p.2.min_voltage ∧
      Centi p.2.max_voltage) →
    parseRows (reg.map fun p => exportRow p.1 p.2) = some reg := by
  intro reg
  induction reg with
  | nil =>
      intro _
      rfl
  | cons p ps ih =>
      intro h
      rw [List.map_cons, parseRows, parseRow_exportRow p.1 p.2 (h p (by simp)),
        ih fun q hq => h q (by simp [hq])]

/-- C8: parsing the exported CSV back reproduces every record exactly —
name, chemistry, voltage, current, temperature, capacity and the voltage
bounds — provided the numeric fields are at the stated decimal precision
(multiples of 0.01, which everything the dashboard stores is); the export
emits a header plus one row per cell with columns Cell, Type, voltage,
current, temp, capacity, min_voltage, max_voltage, cell_type. -/
theorem csv_roundtrip (reg : Registry)
    (h : ∀ p ∈ reg, Centi p.2.voltage ∧ Centi p.2.current ∧
      Centi p.2.temp ∧ Centi p.2.capacity ∧ Centi p.2.min_voltage ∧
      Centi p.2.max_voltage) :
    parseCsv (exportCsv reg) = some reg := by
  rw [exportCsv]
  show parseRows (reg.map fun p => exportRow p.1 p.2) = some reg
  exact parseRows_export reg h

/-- Witness for C8 at the concrete one-cell registry. -/
theorem csv_roundtrip_witness :
    parseCsv (exportCsv sampleReg) = some sampleReg :=
  csv_roundtrip sampleReg (by
    intro p hp
    simp only [sampleReg, List.mem_singleton] at hp
    subst hp
    exact ⟨⟨320, by norm_num [sampleCell]⟩, ⟨200, by norm_num [sampleCell]⟩,
      ⟨3000, by norm_num [sampleCell]⟩, ⟨640, by norm_num [sampleCell]⟩,
      ⟨280, by norm_num [sampleCell]⟩, ⟨360, by norm_num [sampleCell]⟩⟩)

end Battelligence
